import Mathlib

/-!
Verification of the gateway lifecycle and token-consistency supervisor of
`src/server.js` (a setup-and-proxy wrapper around an external gateway process).

The development shallowly embeds the relevant source functions:

* `resolveGatewayToken` (src/server.js:31-70) — token resolution and persistence;
* `runCmd` (src/server.js:832-854) — run an external command to completion,
  collecting interleaved stdout/stderr chunks and the exit code;
* `startGateway` (src/server.js:347-434) — token sync + read-back verification +
  spawn of the child gateway process;
* `ensureGatewayRunning` (src/server.js:436-452) — single-flight start logic;
* `restartGateway` (src/server.js:454-482) — kill, cleanup, grace sleep, re-ensure;
* `waitForGatewayReady` (src/server.js:323-345) — abstracted to a boolean
  "some probe got an HTTP response within the timeout window".

File-system reads, the external configuration tool and the readiness probes are
modelled as explicit environment parameters (`ConfigRead`, `StartEnv`, lists of
process events), so every definition is executable.  The JavaScript event-loop
interleaving of concurrent `ensureGatewayRunning` callers is modelled as a
small-step transition system (`Sys`, `step`, `run`) whose atomic steps are the
synchronous blocks between `await` suspension points of the source.
-/

namespace Moltbot

/-! ### Token store (`resolveGatewayToken`, src/server.js:31-70) -/

/-- Lowercase hexadecimal digits, as produced by `Buffer.toString("hex")`. -/
def hexDigits : List Char := "0123456789abcdef".data

/-- Hex digit for a nibble value. -/
def hexChar (n : Nat) : Char := hexDigits.getD n '0'

/-- Two lowercase hex characters of one byte, high nibble first, as
`Buffer.toString("hex")` renders each byte. -/
def byteToHex (b : Nat) : List Char := [hexChar (b / 16), hexChar (b % 16)]

/-- Hex rendering of a byte sequence: the model of
`crypto.randomBytes(32).toString("hex")` applied to the drawn bytes
(src/server.js:60). -/
def bytesToHex : List Nat → List Char
  | [] => []
  | b :: bs => byteToHex b ++ bytesToHex bs

/-- Whether a character is a lowercase hex digit. -/
def isHexDigit (c : Char) : Bool := hexDigits.contains c

/-- Characters stripped from both ends of a string, as JavaScript
`String.prototype.trim` strips whitespace and line terminators. -/
def trimChars (l : List Char) : List Char :=
  ((l.dropWhile Char.isWhitespace).reverse.dropWhile Char.isWhitespace).reverse

/-- Executable model of JavaScript `.trim()`. -/
def strTrim (s : String) : String := String.mk (trimChars s.data)

/-- File name of the persisted token, under the state directory
(src/server.js:46: `path.join(STATE_DIR, "gateway.token")`). -/
def gatewayTokenFile : String := "gateway.token"

/-- File mode used when persisting the token (src/server.js:64: `mode: 0o600`). -/
def gatewayTokenFileMode : Nat := 0o600

/-- A write of the token file attempted by `resolveGatewayToken`
(src/server.js:63-64): target file, permission mode, and written value. -/
structure PersistAttempt where
  file : String
  mode : Nat
  value : String
deriving DecidableEq, Repr

/-- Fallback branch of `resolveGatewayToken` (src/server.js:45-69): read the
persisted file (`none` models a read error / missing file); a non-empty trimmed
content is used as-is, otherwise the freshly generated token `gen` is used and a
persist of `gen` is attempted.  Returns the resolved token and the attempted
write (if any). -/
def resolveFromFile (fileContents : Option String) (gen : String) :
    String × Option PersistAttempt :=
  match fileContents with
  | some c =>
    if strTrim c ≠ "" then (strTrim c, none)
    else (gen, some ⟨gatewayTokenFile, gatewayTokenFileMode, gen⟩)
  | none => (gen, some ⟨gatewayTokenFile, gatewayTokenFileMode, gen⟩)

/-- Model of `resolveGatewayToken` (src/server.js:31-70).  `envVar` is the raw
`OPENCLAW_GATEWAY_TOKEN` environment value (`none` when unset), `fileContents`
the persisted token file, `gen` the freshly generated random hex token.  The
environment value is trimmed and, when non-empty, used verbatim with no write;
otherwise resolution falls through to the persisted file / generation branch. -/
def resolveGatewayToken (envVar : Option String) (fileContents : Option String)
    (gen : String) : String × Option PersistAttempt :=
  match envVar with
  | some e => if strTrim e ≠ "" then (strTrim e, none) else resolveFromFile fileContents gen
  | none => resolveFromFile fileContents gen

/-- Effect of the attempted persist on the token file: the write may fail
(`writeOk = false`), in which case the file keeps its previous contents.  The
source catches and logs the failure (src/server.js:66-68). -/
def applyPersist (writeOk : Bool) (fileContents : Option String)
    (att : Option PersistAttempt) : Option String :=
  match att with
  | some a => if writeOk then some a.value else fileContents
  | none => fileContents

/-- Token resolution combined with the (possibly failing) persist, returning
the resolved token and the resulting token-file contents. -/
def resolveAndPersist (envVar fileContents : Option String) (gen : String)
    (writeOk : Bool) : String × Option String :=
  ((resolveGatewayToken envVar fileContents gen).1,
   applyPersist writeOk fileContents (resolveGatewayToken envVar fileContents gen).2)

/-! ### Process runner (`runCmd`, src/server.js:832-854) -/

/-- One event observed on a spawned child process, in arrival order: a stdout
chunk, a stderr chunk, a spawn-level `error` event (with the stringified error),
or the `close` event with its (possibly `null`) exit code. -/
inductive ProcEv
  | out (chunk : List Char)
  | errOut (chunk : List Char)
  | spawnErr (msg : List Char)
  | close (code : Option Int)
deriving DecidableEq, Repr

/-- Result object `runCmd` resolves with: `{ code, output }`. -/
structure RunResult where
  code : Int
  output : List Char
deriving DecidableEq, Repr

/-- Text appended to the output on a spawn-level error
(src/server.js:848: `out += "\n[spawn error] " + String(err) + "\n"`). -/
def spawnErrText (msg : List Char) : List Char :=
  "\n[spawn error] ".data ++ msg ++ "\n".data

/-- Event loop of `runCmd` (src/server.js:843-853): accumulate stdout/stderr
chunks into one buffer in arrival order; the first `error` event resolves with
the synthetic exit code 127 and the error text appended; the first `close`
event resolves with `code ?? 0` and the buffer.  `none` means the promise has
not resolved (no terminating event arrived). -/
def runCmdGo (acc : List Char) : List ProcEv → Option RunResult
  | [] => none
  | ProcEv.out c :: rest => runCmdGo (acc ++ c) rest
  | ProcEv.errOut c :: rest => runCmdGo (acc ++ c) rest
  | ProcEv.spawnErr m :: _ => some ⟨127, acc ++ spawnErrText m⟩
  | ProcEv.close c :: _ => some ⟨c.getD 0, acc⟩

/-- Model of `runCmd(cmd, args, opts)` (src/server.js:832-854) given the child
process events.  The command and arguments do not influence the resolution
logic (they only determine, via the operating system, which events occur). -/
def runCmd (cmd : String) (args : List String) (evs : List ProcEv) :
    Option RunResult :=
  runCmdGo [] evs

/-- Whether an event resolves the `runCmd` promise. -/
def isTerm : ProcEv → Bool
  | ProcEv.spawnErr _ => true
  | ProcEv.close _ => true
  | _ => false

/-- Output contribution of a non-terminating event. -/
def chunkText : ProcEv → List Char
  | ProcEv.out c => c
  | ProcEv.errOut c => c
  | _ => []

/-- Concatenation of the chunk texts of a list of events, in arrival order. -/
def concatChunks : List ProcEv → List Char
  | [] => []
  | e :: rest => chunkText e ++ concatChunks rest

/-- Exit code produced by a terminating event: 127 for a spawn error
(src/server.js:849), `code ?? 0` for a close (src/server.js:852). -/
def termCode : ProcEv → Int
  | ProcEv.spawnErr _ => 127
  | ProcEv.close c => c.getD 0
  | _ => 0

/-- Output text appended by a terminating event. -/
def termText : ProcEv → List Char
  | ProcEv.spawnErr m => spawnErrText m
  | _ => []

/-- Success test applied by callers of `runCmd` to its result, e.g.
`r.code === 0` (src/server.js:883, 1141). -/
def cmdSucceeded (r : RunResult) : Bool := r.code == 0

/-! ### Gateway supervisor: start sequence (`startGateway`,
src/server.js:347-434, and the readiness wait of `ensureGatewayRunning`,
src/server.js:440-445) -/

/-- Errors a start sequence can fail with.  `readbackUnreadable` stands for the
re-thrown `fs.readFileSync` / `JSON.parse` error of the verification step
(src/server.js:391-394), `tokenMismatch` for the `Token mismatch: ...` error
thrown at src/server.js:386-388, `notReadyInTime` for the
`Gateway did not become ready in time` error thrown at src/server.js:444. -/
inductive StartErr
  | readbackUnreadable
  | tokenMismatch
  | notReadyInTime
deriving DecidableEq, Repr

/-- Result of reading back the persisted configuration file after the token
sync (src/server.js:375): the file may be missing (read throws), present but
not valid JSON (parse throws), or parsed, in which case
`config?.gateway?.auth?.token` is an optional string. -/
inductive ConfigRead
  | missing
  | unparseable
  | parsed (tok : Option String)
deriving DecidableEq, Repr

/-- External environment one start sequence runs against: the config read-back
observed after the `config set` command, and whether any readiness probe got an
HTTP response within the poll window (`waitForGatewayReady`,
src/server.js:323-345, abstracted to its boolean outcome). -/
structure StartEnv where
  readback : ConfigRead
  ready : Bool
deriving DecidableEq, Repr

/-- Token verification of `startGateway` (src/server.js:374-394): read back the
config file and compare `config?.gateway?.auth?.token` with the in-memory
token.  A missing or unparseable file re-throws the read/parse error; a parsed
file whose token field differs from `tok` (including an absent field) throws
the token-mismatch error; otherwise verification passes (`none`). -/
def verifyToken (tok : String) (rb : ConfigRead) : Option StartErr :=
  match rb with
  | ConfigRead.missing => some StartErr.readbackUnreadable
  | ConfigRead.unparseable => some StartErr.readbackUnreadable
  | ConfigRead.parsed ct =>
    if ct = some tok then none else some StartErr.tokenMismatch

/-- Result type of `ensureGatewayRunning` / `restartGateway` as observed by a
caller: `{ ok: true }`, `{ ok: false, reason: "not configured" }`
(src/server.js:437), or a rejection carrying a start error. -/
inductive Res
  | okRes
  | notConfiguredRes
  | errRes (e : StartErr)
deriving DecidableEq, Repr

/-- Settled result of an awaited start sequence: fulfilment gives
`{ ok: true }` (src/server.js:451), rejection propagates the error. -/
def resOf : Option StartErr → Res
  | none => Res.okRes
  | some e => Res.errRes e

/-- Full start sequence (`startGateway` followed by the readiness wait inside
`ensureGatewayRunning`, src/server.js:440-445): verification failure aborts
with its error before the spawn; otherwise the child is spawned and the
sequence succeeds or fails on readiness.  Returns
`(error if any, whether the child was spawned)`.  Note the source never kills
the child nor clears `gatewayProc` on a readiness failure. -/
def startSequence (tok : String) (env : StartEnv) : Option StartErr × Bool :=
  match verifyToken tok env.readback with
  | some e => (some e, false)
  | none => ((if env.ready then none else some StartErr.notReadyInTime), true)

/-- Final outcome of a start sequence (first component of `startSequence`). -/
def seqOutcome (tok : String) (env : StartEnv) : Option StartErr :=
  (startSequence tok env).1

/-- Externally visible actions of the supervisor, used to state ordering and
absence properties: the `config set gateway.auth.token` command
(src/server.js:359-362), the config read-back (src/server.js:375), the child
spawn (src/server.js:411), `gatewayProc.kill("SIGTERM")` (src/server.js:461),
the `pkill -f openclaw-gateway` cleanup (src/server.js:472), and a sleep
(src/server.js:479). -/
inductive Act
  | runConfigSet
  | readBackConfig
  | spawnChild
  | killChild
  | pkillOthers
  | sleepMs (n : Nat)
deriving DecidableEq, Repr

/-- Action trace of one start sequence: the token-sync command, then the
read-back; the child spawn happens only if verification passes.  No kill ever
occurs in a start sequence. -/
def startSeqTrace (tok : String) (env : StartEnv) : List Act :=
  match verifyToken tok env.readback with
  | some _ => [Act.runConfigSet, Act.readBackConfig]
  | none => [Act.runConfigSet, Act.readBackConfig, Act.spawnChild]

/-- Sequential model of `ensureGatewayRunning` (src/server.js:436-452) for a
single caller: inputs are the configured flag (`isConfigured()`,
src/server.js:308-314), whether a child reference is currently held
(`gatewayProc`), the wrapper token and the start environment.  Returns
`(result, reference held afterwards, whether a child was spawned)`. -/
def ensureGatewayRunning (config proc : Bool) (tok : String) (env : StartEnv) :
    Res × Bool × Bool :=
  if config = false then (Res.notConfiguredRes, proc, false)
  else if proc = true then (Res.okRes, proc, false)
  else
    (resOf (startSequence tok env).1, (startSequence tok env).2,
     (startSequence tok env).2)

/-- Action trace of one `ensureGatewayRunning` call: both short-circuit
branches run no external command and spawn nothing. -/
def ensureTrace (config proc : Bool) (tok : String) (env : StartEnv) :
    List Act :=
  if config = false then []
  else if proc = true then []
  else startSeqTrace tok env

/-- Model of `restartGateway` (src/server.js:454-482): if a reference is held,
send it SIGTERM (any error from the kill is caught and ignored — `killFails`
does not influence anything) and clear the reference; then best-effort
`pkill` other gateway processes, sleep the fixed 1500 ms grace interval, and
run `ensureGatewayRunning` on the cleared state, returning its result.
Returns `(action trace, result, reference held afterwards)`. -/
def restartGateway (config proc : Bool) (tok : String) (env : StartEnv)
    (killFails : Bool) : List Act × Res × Bool :=
  ((if proc = true then [Act.killChild] else [])
      ++ [Act.pkillOthers, Act.sleepMs 1500] ++ ensureTrace config false tok env,
   (ensureGatewayRunning config false tok env).1,
   (ensureGatewayRunning config false tok env).2.1)

/-! ### Concurrent model of `ensureGatewayRunning` (src/server.js:436-452)

JavaScript executes each synchronous block between `await` suspension points
atomically.  The blocks relevant to concurrent `ensureGatewayRunning` callers
are:

* the prologue of a call (src/server.js:437-449): the `isConfigured()` check,
  the `gatewayProc` fast path, and — when no start is in flight — creation of
  the shared `gatewayStarting` promise, whose synchronous prefix runs
  `startGateway` up to the first `await` (initiating the `config set` command);
* the continuation after the `config set` command resolves
  (src/server.js:364-418): verification and, on success, the synchronous
  `childProcess.spawn` that sets `gatewayProc`;
* the continuation after the readiness wait resolves (src/server.js:442-448),
  fused with the `.finally` that unconditionally clears `gatewayStarting`;
* the resumption of a caller awaiting the settled `gatewayStarting` promise
  (src/server.js:450-451);
* the `exit`/`error` callbacks of the child, which clear `gatewayProc`
  (src/server.js:425-433). -/

/-- Phase of one in-flight start sequence: awaiting the `config set` command,
awaiting readiness after the spawn, or settled with its outcome. -/
inductive SeqPhase
  | syncing
  | waitingReady
  | finished (r : Option StartErr)
deriving DecidableEq, Repr

/-- Phase of one `ensureGatewayRunning` caller: call made but prologue not yet
run, awaiting sequence `sid`, or settled with a result. -/
inductive CallerPhase
  | pending
  | awaiting (sid : Nat)
  | settled (r : Res)
deriving DecidableEq, Repr

/-- Atomic events of the concurrent model: a caller's prologue, a progress
step of an in-flight sequence, the resumption of an awaiting caller, or the
child's exit/error callback clearing the held reference. -/
inductive Ev
  | call (i : Nat)
  | seqStep (sid : Nat)
  | settle (i : Nat)
  | childGone
deriving DecidableEq, Repr

/-- Whether an event is a caller prologue. -/
def isCall : Ev → Bool
  | Ev.call _ => true
  | _ => false

/-- Global state of the wrapper process: the configured flag, the wrapper
token, the start environment, the held child reference (`gatewayProc`), the
in-flight-start marker (`gatewayStarting`, holding the id of the in-flight
sequence), a fresh-id counter, the phase of each created sequence, the phase
of each caller, and counters of child spawns and external commands run. -/
structure Sys where
  config : Bool
  tok : String
  env : StartEnv
  proc : Bool
  starting : Option Nat
  nextId : Nat
  seqs : Nat → Option SeqPhase
  callers : Nat → Option CallerPhase
  spawnCount : Nat
  cmdCount : Nat

/-- Pointwise function update. -/
def upd {α : Type} (f : Nat → α) (i : Nat) (v : α) : Nat → α :=
  fun j => if j = i then v else f j

/-- One atomic step of the concurrent model.  Events that do not apply in the
current state are no-ops. -/
def step (s : Sys) (e : Ev) : Sys :=
  match e with
  | Ev.call i =>
    match s.callers i with
    | some CallerPhase.pending =>
      if s.config = false then
        { s with callers := upd s.callers i (some (CallerPhase.settled Res.notConfiguredRes)) }
      else if s.proc = true then
        { s with callers := upd s.callers i (some (CallerPhase.settled Res.okRes)) }
      else
        match s.starting with
        | some sid =>
          { s with callers := upd s.callers i (some (CallerPhase.awaiting sid)) }
        | none =>
          { s with
            callers := upd s.callers i (some (CallerPhase.awaiting s.nextId)),
            starting := some s.nextId,
            seqs := upd s.seqs s.nextId (some SeqPhase.syncing),
            nextId := s.nextId + 1,
            cmdCount := s.cmdCount + 1 }
    | _ => s
  | Ev.seqStep sid =>
    match s.seqs sid with
    | some SeqPhase.syncing =>
      match verifyToken s.tok s.env.readback with
      | some e =>
        { s with seqs := upd s.seqs sid (some (SeqPhase.finished (some e))),
                 starting := none }
      | none =>
        { s with seqs := upd s.seqs sid (some SeqPhase.waitingReady),
                 proc := true, spawnCount := s.spawnCount + 1 }
    | some SeqPhase.waitingReady =>
      { s with
        seqs := upd s.seqs sid
          (some (SeqPhase.finished
            (if s.env.ready then none else some StartErr.notReadyInTime))),
        starting := none }
    | _ => s
  | Ev.settle i =>
    match s.callers i with
    | some (CallerPhase.awaiting sid) =>
      match s.seqs sid with
      | some (SeqPhase.finished r) =>
        { s with callers := upd s.callers i (some (CallerPhase.settled (resOf r))) }
      | _ => s
    | _ => s
  | Ev.childGone => { s with proc := false }

/-- Run of the concurrent model from a state over a schedule of events. -/
def run (s : Sys) : List Ev → Sys
  | [] => s
  | e :: evs => run (step s e) evs

/-- Initial state for a scenario with `n` concurrent callers while the
supervisor is idle (configured, no reference held, no start in flight). -/
def initSys (n : Nat) (tok : String) (env : StartEnv) : Sys :=
  { config := true, tok := tok, env := env, proc := false, starting := none,
    nextId := 0, seqs := fun _ => none,
    callers := fun i => if i < n then some CallerPhase.pending else none,
    spawnCount := 0, cmdCount := 0 }

/-- Number of spawns attributable to sequences of a given verification result:
one per sequence that passed verification, none otherwise. -/
def spawnOf : Option StartErr → Nat
  | none => 1
  | some _ => 0

/-- Invariant holding while the prologues of the concurrent callers run, in a
scenario started from `initSys n tok env`: `called` collects the callers whose
prologue has run.  The first prologue created sequence 0 and set the in-flight
marker; every later prologue joined it; no sequence step has run yet. -/
structure CallsInv (n : Nat) (tok : String) (env : StartEnv)
    (called : Nat → Prop) (s : Sys) : Prop where
  config : s.config = true
  tokEq : s.tok = tok
  envEq : s.env = env
  procF : s.proc = false
  startingEq : s.starting = some 0
  nextIdEq : s.nextId = 1
  seq0 : s.seqs 0 = some SeqPhase.syncing
  seqHigh : ∀ k, k ≠ 0 → s.seqs k = none
  callersIn : ∀ i, i < n → called i → s.callers i = some (CallerPhase.awaiting 0)
  callersOut : ∀ i, i < n → ¬ called i → s.callers i = some CallerPhase.pending
  callersHigh : ∀ i, n ≤ i → s.callers i = none
  spawn0 : s.spawnCount = 0
  cmd1 : s.cmdCount = 1

/-- Invariant holding after all prologues have run (no further caller
prologues occur): sequence 0 is the only sequence ever created, its phase
advances `syncing → waitingReady → finished` with the outcome determined by
the environment, the in-flight marker points to it exactly while it is
unfinished, the spawn count matches its progress, and every caller is either
still awaiting it or settled with its outcome after it finished. -/
structure FlightInv (n : Nat) (tok : String) (env : StartEnv) (s : Sys) : Prop where
  config : s.config = true
  tokEq : s.tok = tok
  envEq : s.env = env
  nextIdEq : s.nextId = 1
  cmd1 : s.cmdCount = 1
  seqHigh : ∀ k, k ≠ 0 → s.seqs k = none
  callersHigh : ∀ i, n ≤ i → s.callers i = none
  seqCase :
    (s.seqs 0 = some SeqPhase.syncing ∧ s.starting = some 0 ∧ s.spawnCount = 0) ∨
    (s.seqs 0 = some SeqPhase.waitingReady ∧ s.starting = some 0 ∧
      s.spawnCount = 1 ∧ verifyToken tok env.readback = none) ∨
    (s.seqs 0 = some (SeqPhase.finished (seqOutcome tok env)) ∧ s.starting = none ∧
      s.spawnCount = spawnOf (verifyToken tok env.readback))
  callersC : ∀ i, i < n →
    s.callers i = some (CallerPhase.awaiting 0) ∨
    (s.callers i = some (CallerPhase.settled (resOf (seqOutcome tok env))) ∧
      s.seqs 0 = some (SeqPhase.finished (seqOutcome tok env)))

/-- Invariant tracking one caller `i` awaiting sequence `sid`: sequence ids at
or above `nextId` are unused, `sid` is a created sequence, and caller `i` is
either still awaiting `sid` or settled with the outcome `sid` finished with. -/
structure AwaitInv (i sid : Nat) (s : Sys) : Prop where
  fresh : ∀ k, s.nextId ≤ k → s.seqs k = none
  sidLt : sid < s.nextId
  state : s.callers i = some (CallerPhase.awaiting sid) ∨
    ∃ rr, s.seqs sid = some (SeqPhase.finished rr) ∧
      s.callers i = some (CallerPhase.settled (resOf rr))

/-- Concrete state used to witness the amended C4 claim: the state reached
from `initSys 2 "t" env` after the first caller's prologue — sequence 0 in
flight, caller 0 awaiting it, caller 1 still pending. -/
def c4WitnessState : Sys :=
  { config := true, tok := "t", env := ⟨ConfigRead.parsed (some "t"), true⟩,
    proc := false, starting := some 0, nextId := 1,
    seqs := upd (fun _ => none) 0 (some SeqPhase.syncing),
    callers := upd (fun j => if j < 2 then some CallerPhase.pending else none) 0
      (some (CallerPhase.awaiting 0)),
    spawnCount := 0, cmdCount := 1 }

/-! ### Helper lemmas -/

/-- Length of the hex rendering: two characters per byte. -/
lemma bytesToHex_length (bs : List Nat) : (bytesToHex bs).length = 2 * bs.length := by
  induction bs with
  | nil => simp [bytesToHex]
  | cons b bs ih =>
    simp [bytesToHex, byteToHex, ih]
    ring

/-- Every nibble renders to a hex digit. -/
lemma hexChar_isHex : ∀ n < 16, isHexDigit (hexChar n) = true := by decide

/-- Every byte below 256 renders to hex digits only. -/
lemma byteToHex_hex (b : Nat) (hb : b < 256) :
    ∀ ch ∈ byteToHex b, isHexDigit ch = true := by
  intro ch hch
  simp [byteToHex] at hch
  rcases hch with h | h <;> subst h
  · exact hexChar_isHex _ (Nat.div_lt_of_lt_mul (by omega))
  · exact hexChar_isHex _ (Nat.mod_lt _ (by omega))

/-- A byte list below 256 renders to hex digits only. -/
lemma bytesToHex_hex (bs : List Nat) (h : ∀ b ∈ bs, b < 256) :
    ∀ ch ∈ bytesToHex bs, isHexDigit ch = true := by
  induction bs with
  | nil => simp [bytesToHex]
  | cons b bs ih =>
    intro ch hch
    simp only [bytesToHex, List.mem_append] at hch
    rcases hch with hc | hc
    · exact byteToHex_hex b (h b (by simp)) ch hc
    · exact ih (fun x hx => h x (by simp [hx])) ch hc

/-- A run of `runCmd` events consisting of non-terminating chunks followed by a
terminating event resolves at that event, with the accumulated chunks and the
terminator's code and appended text. -/
lemma runCmdGo_append (t : ProcEv) (rest : List ProcEv) (ht : isTerm t = true) :
    ∀ (pre : List ProcEv), (∀ e ∈ pre, isTerm e = false) → ∀ acc,
      runCmdGo acc (pre ++ t :: rest)
        = some ⟨termCode t, acc ++ (concatChunks pre ++ termText t)⟩ := by
  intro pre
  induction pre with
  | nil =>
    intro _ acc
    cases t with
    | spawnErr m => simp [runCmdGo, termCode, termText, concatChunks]
    | close c => simp [runCmdGo, termCode, termText, concatChunks]
    | out c => simp [isTerm] at ht
    | errOut c => simp [isTerm] at ht
  | cons e pre ih =>
    intro hpre acc
    have he : isTerm e = false := hpre e (by simp)
    cases e with
    | out c =>
      have hstep : runCmdGo acc ((ProcEv.out c :: pre) ++ t :: rest)
          = runCmdGo (acc ++ c) (pre ++ t :: rest) := rfl
      rw [hstep, ih (fun x hx => hpre x (by simp [hx])) (acc ++ c)]
      simp [concatChunks, chunkText, List.append_assoc]
    | errOut c =>
      have hstep : runCmdGo acc ((ProcEv.errOut c :: pre) ++ t :: rest)
          = runCmdGo (acc ++ c) (pre ++ t :: rest) := rfl
      rw [hstep, ih (fun x hx => hpre x (by simp [hx])) (acc ++ c)]
      simp [concatChunks, chunkText, List.append_assoc]
    | spawnErr m => simp [isTerm] at he
    | close c => simp [isTerm] at he

/-! ### Claim theorems (sequential level) -/

/-- C1 counterexample: when the read-back configuration is unparseable, the
start sequence aborts with the re-thrown read/parse error
(`readbackUnreadable`), which is not the token-mismatch error — contradicting
the claim that the sequence fails with a token-mismatch error in the
unreadable/unparseable case. -/
theorem C1_counterexample :
    startSequence "tok" ⟨ConfigRead.unparseable, true⟩
      = (some StartErr.readbackUnreadable, false) ∧
    StartErr.readbackUnreadable ≠ StartErr.tokenMismatch := by decide

/-- C1 (amended): after the configuration tool's set operation, the persisted
configuration is read back (the read-back follows the set command in the action
trace); if the parsed token field differs from the in-memory token the start
sequence fails with the token-mismatch error, and if the file is unreadable or
unparseable it fails with the re-thrown read/parse error; in both cases the
child gateway process is not spawned. -/
theorem C1_amended_verify_failure_aborts (tok : String) (env : StartEnv) :
    (∀ ct, env.readback = ConfigRead.parsed ct → ct ≠ some tok →
      startSequence tok env = (some StartErr.tokenMismatch, false) ∧
      Act.spawnChild ∉ startSeqTrace tok env) ∧
    ((env.readback = ConfigRead.missing ∨ env.readback = ConfigRead.unparseable) →
      startSequence tok env = (some StartErr.readbackUnreadable, false) ∧
      Act.spawnChild ∉ startSeqTrace tok env) ∧
    (startSeqTrace tok env).take 2 = [Act.runConfigSet, Act.readBackConfig] := by
  refine ⟨?_, ?_, ?_⟩
  · intro ct hrb hne
    have hv : verifyToken tok env.readback = some StartErr.tokenMismatch := by
      rw [hrb]; simp [verifyToken, hne]
    exact ⟨by simp [startSequence, hv], by simp [startSeqTrace, hv]⟩
  · intro hrb
    have hv : verifyToken tok env.readback = some StartErr.readbackUnreadable := by
      rcases hrb with h | h <;> rw [h] <;> rfl
    exact ⟨by simp [startSequence, hv], by simp [startSeqTrace, hv]⟩
  · cases hv : verifyToken tok env.readback <;> simp [startSeqTrace, hv]

/-- C1 amended witness: concrete instances of both failure modes. -/
theorem C1_amended_witness :
    startSequence "t" ⟨ConfigRead.parsed (some "x"), true⟩
      = (some StartErr.tokenMismatch, false) ∧
    startSequence "t" ⟨ConfigRead.missing, false⟩
      = (some StartErr.readbackUnreadable, false) :=
  ⟨((C1_amended_verify_failure_aborts "t" ⟨ConfigRead.parsed (some "x"), true⟩).1
      (some "x") rfl (by decide)).1,
   ((C1_amended_verify_failure_aborts "t" ⟨ConfigRead.missing, false⟩).2.1
      (Or.inl rfl)).1⟩

/-- C2 counterexample: after a readiness timeout the child reference IS left
behind (`gatewayProc` is never cleared on that path), and a subsequent
`ensureGatewayRunning` call sees the held reference and returns success
immediately instead of retrying the start sequence — contradicting the claim
that no held reference is left behind and that a future call retries. -/
theorem C2_counterexample :
    ensureGatewayRunning true false "t" ⟨ConfigRead.parsed (some "t"), false⟩
      = (Res.errRes StartErr.notReadyInTime, true, true) ∧
    ensureGatewayRunning true true "t" ⟨ConfigRead.parsed (some "t"), false⟩
      = (Res.okRes, true, false) := by decide

/-- C2 (amended): if the readiness poll elapses with no probe response, the
start sequence fails with the "did not become ready in time" error and the
spawned child is not killed; but the held child-process reference remains set,
so a future `ensureGatewayRunning` call sees the held reference and returns
success immediately without re-running the start sequence. -/
theorem C2_amended_readiness_timeout_keeps_reference (tok : String)
    (env : StartEnv) (hv : verifyToken tok env.readback = none)
    (hr : env.ready = false) :
    ensureGatewayRunning true false tok env
      = (Res.errRes StartErr.notReadyInTime, true, true) ∧
    Act.killChild ∉ startSeqTrace tok env ∧
    (∀ env2 : StartEnv,
      ensureGatewayRunning true true tok env2 = (Res.okRes, true, false)) := by
  refine ⟨?_, ?_, fun env2 => by simp [ensureGatewayRunning]⟩
  · simp [ensureGatewayRunning, startSequence, hv, hr, resOf]
  · simp [startSeqTrace, hv]

/-- C2 amended witness: concrete instance of the readiness-timeout run and the
subsequent fast-path success. -/
theorem C2_amended_witness :
    ensureGatewayRunning true false "t" ⟨ConfigRead.parsed (some "t"), false⟩
      = (Res.errRes StartErr.notReadyInTime, true, true) ∧
    Act.killChild ∉ startSeqTrace "t" ⟨ConfigRead.parsed (some "t"), false⟩ :=
  ⟨(C2_amended_readiness_timeout_keeps_reference "t"
      ⟨ConfigRead.parsed (some "t"), false⟩ (by decide) rfl).1,
   (C2_amended_readiness_timeout_keeps_reference "t"
      ⟨ConfigRead.parsed (some "t"), false⟩ (by decide) rfl).2.1⟩

/-- C5: `ensureGatewayRunning` with no persisted configuration returns the
"not configured" failure immediately: the sequential model runs no external
command and spawns nothing, and in the concurrent model a caller prologue on an
unconfigured state settles with the not-configured result without touching the
command counter, the spawn counter or the sequence table. -/
theorem C5_not_configured_short_circuit :
    (∀ (proc : Bool) (tok : String) (env : StartEnv),
      ensureGatewayRunning false proc tok env = (Res.notConfiguredRes, proc, false) ∧
      ensureTrace false proc tok env = []) ∧
    (∀ (s : Sys) (i : Nat), s.config = false →
      (step s (Ev.call i)).cmdCount = s.cmdCount ∧
      (step s (Ev.call i)).spawnCount = s.spawnCount ∧
      (step s (Ev.call i)).nextId = s.nextId ∧
      (s.callers i = some CallerPhase.pending →
        (step s (Ev.call i)).callers i
          = some (CallerPhase.settled Res.notConfiguredRes))) := by
  constructor
  · intro proc tok env
    exact ⟨by simp [ensureGatewayRunning], by simp [ensureTrace]⟩
  · intro s i hc
    cases hcal : s.callers i with
    | none => simp [step, hcal]
    | some ph =>
      cases ph with
      | pending => simp [step, hcal, hc, upd]
      | awaiting sid => simp [step, hcal]
      | settled r => simp [step, hcal]

/-- C5 witness: a concrete unconfigured state with one pending caller. -/
theorem C5_witness :
    (step { initSys 1 "t" ⟨ConfigRead.missing, false⟩ with config := false }
        (Ev.call 0)).cmdCount
      = ({ initSys 1 "t" ⟨ConfigRead.missing, false⟩ with config := false } : Sys).cmdCount ∧
    (step { initSys 1 "t" ⟨ConfigRead.missing, false⟩ with config := false }
        (Ev.call 0)).callers 0
      = some (CallerPhase.settled Res.notConfiguredRes) :=
  ⟨(C5_not_configured_short_circuit.2
      { initSys 1 "t" ⟨ConfigRead.missing, false⟩ with config := false } 0 rfl).1,
   (C5_not_configured_short_circuit.2
      { initSys 1 "t" ⟨ConfigRead.missing, false⟩ with config := false } 0 rfl).2.2.2 rfl⟩

/-- C6: a non-empty (after trimming) externally supplied token is returned
verbatim as trimmed, for any persisted file contents, and no write of the
token file is attempted. -/
theorem C6_env_token_precedence (e : String) (fileContents : Option String)
    (gen : String) (h : strTrim e ≠ "") :
    resolveGatewayToken (some e) fileContents gen = (strTrim e, none) := by
  simp [resolveGatewayToken, h]

/-- C6 witness: a concrete environment token with surrounding whitespace wins
over a persisted value and triggers no write. -/
theorem C6_witness :
    resolveGatewayToken (some " tok ") (some "persisted-other") "gen"
      = (strTrim " tok ", none) :=
  C6_env_token_precedence " tok " (some "persisted-other") "gen" (by decide)

/-- C7: with no usable external token and no usable persisted token, the
resolver returns the hex rendering of the 32 drawn random bytes — a
64-character string of hex digits — attempts to persist exactly that value to
`gateway.token` with mode `0o600`, and returns it whether or not the persist
succeeds. -/
theorem C7_generated_token (envVar fileContents : Option String) (bs : List Nat)
    (henv : envVar = none ∨ ∃ e, envVar = some e ∧ strTrim e = "")
    (hfile : fileContents = none ∨ ∃ c, fileContents = some c ∧ strTrim c = "")
    (hlen : bs.length = 32) :
    resolveGatewayToken envVar fileContents (String.mk (bytesToHex bs))
        = (String.mk (bytesToHex bs),
           some ⟨gatewayTokenFile, gatewayTokenFileMode, String.mk (bytesToHex bs)⟩) ∧
    (String.mk (bytesToHex bs)).length = 64 ∧
    ((∀ b ∈ bs, b < 256) → ∀ ch ∈ bytesToHex bs, isHexDigit ch = true) ∧
    (∀ writeOk : Bool,
      (resolveAndPersist envVar fileContents (String.mk (bytesToHex bs)) writeOk).1
        = String.mk (bytesToHex bs)) ∧
    gatewayTokenFileMode = 0o600 := by
  have hfile' : resolveFromFile fileContents (String.mk (bytesToHex bs))
      = (String.mk (bytesToHex bs),
         some ⟨gatewayTokenFile, gatewayTokenFileMode, String.mk (bytesToHex bs)⟩) := by
    rcases hfile with h | ⟨c, hc, hct⟩
    · subst h; simp [resolveFromFile]
    · subst hc; simp [resolveFromFile, hct]
  have hres : resolveGatewayToken envVar fileContents (String.mk (bytesToHex bs))
      = (String.mk (bytesToHex bs),
         some ⟨gatewayTokenFile, gatewayTokenFileMode, String.mk (bytesToHex bs)⟩) := by
    rcases henv with h | ⟨e, he, het⟩
    · rw [h]; exact hfile'
    · rw [he]; simpa [resolveGatewayToken, het] using hfile'
  refine ⟨hres, ?_, fun hb => bytesToHex_hex bs hb, ?_, rfl⟩
  · show (bytesToHex bs).length = 64
    rw [bytesToHex_length, hlen]
  · intro writeOk
    simp [resolveAndPersist, hres]

/-- C7 witness: a concrete 32-byte draw, with empty environment and an
empty persisted file. -/
theorem C7_witness :
    resolveGatewayToken none (some "") (String.mk (bytesToHex (List.replicate 32 171)))
        = (String.mk (bytesToHex (List.replicate 32 171)),
           some ⟨gatewayTokenFile, gatewayTokenFileMode,
                 String.mk (bytesToHex (List.replicate 32 171))⟩) ∧
    (String.mk (bytesToHex (List.replicate 32 171))).length = 64 :=
  ⟨(C7_generated_token none (some "") (List.replicate 32 171) (Or.inl rfl)
      (Or.inr ⟨"", rfl, rfl⟩) (by decide)).1,
   (C7_generated_token none (some "") (List.replicate 32 171) (Or.inl rfl)
      (Or.inr ⟨"", rfl, rfl⟩) (by decide)).2.1⟩

/-- C8: for any command, arguments and child-process behaviour consisting of
output chunks followed by a terminating event, `runCmd` resolves with a result
object whose output is the concatenation of all stdout/stderr chunks in
arrival order plus, for a spawn-level error, the appended error text with the
synthetic non-zero exit code 127; a close event resolves with its exit code.
The call never rejects: it resolves whenever the child closes or errors. -/
theorem C8_runCmd_always_resolves (cmd : String) (args : List String)
    (pre : List ProcEv) (t : ProcEv) (rest : List ProcEv)
    (hpre : ∀ e ∈ pre, isTerm e = false) (ht : isTerm t = true) :
    runCmd cmd args (pre ++ t :: rest)
      = some ⟨termCode t, concatChunks pre ++ termText t⟩ ∧
    (∀ m, t = ProcEv.spawnErr m →
      termCode t = 127 ∧ termText t = spawnErrText m ∧ (127 : Int) ≠ 0) ∧
    (∀ c, t = ProcEv.close c → termCode t = c.getD 0 ∧ termText t = []) := by
  refine ⟨?_, ?_, ?_⟩
  · simpa [runCmd] using runCmdGo_append t rest ht pre hpre []
  · rintro m rfl
    exact ⟨rfl, rfl, by decide⟩
  · rintro c rfl
    exact ⟨rfl, rfl⟩

/-- C8 witness: a concrete run with one stdout chunk, one stderr chunk, and a
close with exit code 3. -/
theorem C8_witness :
    runCmd "node" ["--version"]
        ([ProcEv.out "v2".data, ProcEv.errOut "warn".data]
          ++ ProcEv.close (some 3) :: [])
      = some ⟨termCode (ProcEv.close (some 3)),
              concatChunks [ProcEv.out "v2".data, ProcEv.errOut "warn".data]
                ++ termText (ProcEv.close (some 3))⟩ :=
  (C8_runCmd_always_resolves "node" ["--version"]
    [ProcEv.out "v2".data, ProcEv.errOut "warn".data]
    (ProcEv.close (some 3)) [] (by decide) (by decide)).1

/-- C9: `restartGateway` with a held child reference emits exactly the SIGTERM
to the held child, the best-effort pkill of other gateway processes and the
1500 ms grace sleep, in that order, regardless of whether the kill call errors;
it then runs `ensureGatewayRunning` on the state with the reference cleared and
returns its result, and when configured that ensure call runs a fresh start
sequence (its trace contains the token-sync command). -/
theorem C9_restart_clears_and_respawns (config : Bool) (tok : String)
    (env : StartEnv) :
    (∀ killFails : Bool,
      restartGateway config true tok env killFails
        = ([Act.killChild, Act.pkillOthers, Act.sleepMs 1500]
             ++ ensureTrace config false tok env,
           (ensureGatewayRunning config false tok env).1,
           (ensureGatewayRunning config false tok env).2.1)) ∧
    (config = true →
      Act.runConfigSet ∈ (restartGateway config true tok env true).1) := by
  constructor
  · intro killFails
    simp [restartGateway]
  · intro hc
    subst hc
    cases hv : verifyToken tok env.readback <;>
      simp [restartGateway, ensureTrace, startSeqTrace, hv]

/-- C9 witness: a concrete configured restart with a held reference. -/
theorem C9_witness :
    restartGateway true true "t" ⟨ConfigRead.missing, false⟩ false
      = ([Act.killChild, Act.pkillOthers, Act.sleepMs 1500]
           ++ ensureTrace true false "t" ⟨ConfigRead.missing, false⟩,
         (ensureGatewayRunning true false "t" ⟨ConfigRead.missing, false⟩).1,
         (ensureGatewayRunning true false "t" ⟨ConfigRead.missing, false⟩).2.1) ∧
    Act.runConfigSet ∈ (restartGateway true true "t" ⟨ConfigRead.missing, false⟩ true).1 :=
  ⟨(C9_restart_clears_and_respawns true "t" ⟨ConfigRead.missing, false⟩).1 false,
   (C9_restart_clears_and_respawns true "t" ⟨ConfigRead.missing, false⟩).2 rfl⟩

/-- C10: a close event with a `null` exit code makes `runCmd` resolve with
exit code 0, yielding exactly the same result as a close with exit code 0, so
the result passes the `code === 0` success test used by callers: a
signal-killed command is indistinguishable from a successful one. -/
theorem C10_null_exit_code_is_success (cmd : String) (args : List String)
    (pre : List ProcEv) (rest rest2 : List ProcEv)
    (hpre : ∀ e ∈ pre, isTerm e = false) :
    runCmd cmd args (pre ++ ProcEv.close none :: rest)
      = runCmd cmd args (pre ++ ProcEv.close (some 0) :: rest2) ∧
    runCmd cmd args (pre ++ ProcEv.close none :: rest)
      = some ⟨0, concatChunks pre⟩ ∧
    (∀ r, runCmd cmd args (pre ++ ProcEv.close none :: rest) = some r →
      cmdSucceeded r = true) := by
  have e1 : runCmd cmd args (pre ++ ProcEv.close none :: rest)
      = some ⟨0, concatChunks pre⟩ := by
    simpa [runCmd, termCode, termText] using
      runCmdGo_append (ProcEv.close none) rest (by decide) pre hpre []
  have e2 : runCmd cmd args (pre ++ ProcEv.close (some 0) :: rest2)
      = some ⟨0, concatChunks pre⟩ := by
    simpa [runCmd, termCode, termText] using
      runCmdGo_append (ProcEv.close (some 0)) rest2 (by decide) pre hpre []
  refine ⟨e1.trans e2.symm, e1, ?_⟩
  intro r hr
  rw [e1] at hr
  obtain rfl : (⟨0, concatChunks pre⟩ : RunResult) = r := by
    injection hr
  rfl

/-- C10 witness: a concrete signal-killed run (close with `null` code). -/
theorem C10_witness :
    runCmd "sh" [] ([ProcEv.out "partial".data] ++ ProcEv.close none :: [])
      = runCmd "sh" [] ([ProcEv.out "partial".data] ++ ProcEv.close (some 0) :: []) ∧
    runCmd "sh" [] ([ProcEv.out "partial".data] ++ ProcEv.close none :: [])
      = some ⟨0, concatChunks [ProcEv.out "partial".data]⟩ :=
  ⟨(C10_null_exit_code_is_success "sh" [] [ProcEv.out "partial".data] [] []
      (by decide)).1,
   (C10_null_exit_code_is_success "sh" [] [ProcEv.out "partial".data] [] []
      (by decide)).2.1⟩

/-! ### Lemmas about the concurrent model -/

/-- Updated index reads the new value. -/
lemma upd_same {α : Type} (f : Nat → α) (i : Nat) (v : α) : upd f i v i = v := by
  simp [upd]

/-- Other indices read the old value. -/
lemma upd_other {α : Type} (f : Nat → α) (i : Nat) (v : α) {j : Nat} (h : j ≠ i) :
    upd f i v j = f j := by
  simp [upd, h]

/-- Running an appended schedule splits into two runs. -/
lemma run_append (s : Sys) (a b : List Ev) : run s (a ++ b) = run (run s a) b := by
  induction a generalizing s with
  | nil => rfl
  | cons e a ih => exact ih (step s e)

/-- A caller prologue in idle state (configured, no reference, no start in
flight) creates a fresh sequence, initiating its token-sync command. -/
lemma step_call_create (s : Sys) (i : Nat)
    (hcal : s.callers i = some CallerPhase.pending)
    (hconf : s.config = true) (hproc : s.proc = false)
    (hstart : s.starting = none) :
    step s (Ev.call i) =
      { s with
        callers := upd s.callers i (some (CallerPhase.awaiting s.nextId)),
        starting := some s.nextId,
        seqs := upd s.seqs s.nextId (some SeqPhase.syncing),
        nextId := s.nextId + 1,
        cmdCount := s.cmdCount + 1 } := by
  simp [step, hcal, hconf, hproc, hstart]

/-- A caller prologue while a start is in flight and no reference is held
joins the in-flight sequence. -/
lemma step_call_join (s : Sys) (i sid : Nat)
    (hcal : s.callers i = some CallerPhase.pending)
    (hconf : s.config = true) (hproc : s.proc = false)
    (hstart : s.starting = some sid) :
    step s (Ev.call i) =
      { s with callers := upd s.callers i (some (CallerPhase.awaiting sid)) } := by
  simp [step, hcal, hconf, hproc, hstart]

/-- A caller prologue on an unconfigured state settles with the
not-configured failure. -/
lemma step_call_notConfigured (s : Sys) (i : Nat)
    (hcal : s.callers i = some CallerPhase.pending) (hconf : s.config = false) :
    step s (Ev.call i) =
      { s with callers := upd s.callers i
                 (some (CallerPhase.settled Res.notConfiguredRes)) } := by
  simp [step, hcal, hconf]

/-- A caller prologue while a reference is held settles with success
immediately (the fast path of src/server.js:438). -/
lemma step_call_fastOk (s : Sys) (i : Nat)
    (hcal : s.callers i = some CallerPhase.pending)
    (hconf : s.config = true) (hproc : s.proc = true) :
    step s (Ev.call i) =
      { s with callers := upd s.callers i (some (CallerPhase.settled Res.okRes)) } := by
  simp [step, hcal, hconf, hproc]

/-- A prologue of a caller that is not pending is a no-op. -/
lemma step_call_notPending (s : Sys) (i : Nat)
    (h : s.callers i ≠ some CallerPhase.pending) :
    step s (Ev.call i) = s := by
  cases hcal : s.callers i with
  | none => simp [step, hcal]
  | some ph =>
    cases ph with
    | pending => exact absurd hcal h
    | awaiting sid => simp [step, hcal]
    | settled r => simp [step, hcal]

/-- Token-sync completion with failing verification finishes the sequence and
clears the in-flight marker; no spawn happens. -/
lemma step_seq_syncing_err (s : Sys) (sid : Nat) (e0 : StartErr)
    (hs : s.seqs sid = some SeqPhase.syncing)
    (hv : verifyToken s.tok s.env.readback = some e0) :
    step s (Ev.seqStep sid) =
      { s with seqs := upd s.seqs sid (some (SeqPhase.finished (some e0))),
               starting := none } := by
  simp [step, hs, hv]

/-- Token-sync completion with passing verification spawns the child (setting
the held reference) and moves the sequence to the readiness wait. -/
lemma step_seq_syncing_ok (s : Sys) (sid : Nat)
    (hs : s.seqs sid = some SeqPhase.syncing)
    (hv : verifyToken s.tok s.env.readback = none) :
    step s (Ev.seqStep sid) =
      { s with seqs := upd s.seqs sid (some SeqPhase.waitingReady),
               proc := true, spawnCount := s.spawnCount + 1 } := by
  simp [step, hs, hv]

/-- Readiness completion finishes the sequence with the readiness outcome and
clears the in-flight marker; the held reference is untouched either way. -/
lemma step_seq_waiting (s : Sys) (sid : Nat)
    (hs : s.seqs sid = some SeqPhase.waitingReady) :
    step s (Ev.seqStep sid) =
      { s with
        seqs := upd s.seqs sid (some (SeqPhase.finished
          (if s.env.ready then none else some StartErr.notReadyInTime))),
        starting := none } := by
  simp [step, hs]

/-- A sequence step on an absent or finished sequence is a no-op. -/
lemma step_seq_noop (s : Sys) (sid : Nat)
    (h1 : s.seqs sid ≠ some SeqPhase.syncing)
    (h2 : s.seqs sid ≠ some SeqPhase.waitingReady) :
    step s (Ev.seqStep sid) = s := by
  cases hs : s.seqs sid with
  | none => simp [step, hs]
  | some ph =>
    cases ph with
    | syncing => exact absurd hs h1
    | waitingReady => exact absurd hs h2
    | finished r => simp [step, hs]

/-- An awaiting caller resumes once its sequence has finished, settling with
the sequence's outcome. -/
lemma step_settle_fin (s : Sys) (i sid : Nat) (r : Option StartErr)
    (hcal : s.callers i = some (CallerPhase.awaiting sid))
    (hs : s.seqs sid = some (SeqPhase.finished r)) :
    step s (Ev.settle i) =
      { s with callers := upd s.callers i (some (CallerPhase.settled (resOf r))) } := by
  simp [step, hcal, hs]

/-- The calls phase: the very first prologue from the idle initial state. -/
lemma callsInv_first (n : Nat) (tok : String) (env : StartEnv) (j : Nat)
    (hj : j < n) :
    CallsInv n tok env (fun i => i = j) (step (initSys n tok env) (Ev.call j)) := by
  have hcal : (initSys n tok env).callers j = some CallerPhase.pending := by
    simp [initSys, hj]
  rw [step_call_create (initSys n tok env) j hcal rfl rfl rfl]
  refine ⟨rfl, rfl, rfl, rfl, rfl, rfl, ?_, ?_, ?_, ?_, ?_, rfl, rfl⟩
  · dsimp only
    rw [show (initSys n tok env).nextId = 0 from rfl, upd_same]
  · intro k hk
    dsimp only
    rw [show (initSys n tok env).nextId = 0 from rfl, upd_other _ _ _ hk]
    rfl
  · intro i hi hij
    subst hij
    dsimp only
    rw [show (initSys n tok env).nextId = 0 from rfl, upd_same]
  · intro i hi hij
    dsimp only
    rw [upd_other _ _ _ hij]
    simp [initSys, hi]
  · intro i hi
    have hij : i ≠ j := by omega
    dsimp only
    rw [upd_other _ _ _ hij]
    simp [initSys]
    omega

/-- Membership-predicate congruence for the calls-phase invariant. -/
lemma callsInv_congr (n : Nat) (tok : String) (env : StartEnv)
    (p q : Nat → Prop) (hpq : ∀ i, p i ↔ q i) (s : Sys)
    (h : CallsInv n tok env p s) : CallsInv n tok env q s :=
  { h with
    callersIn := fun i hi hq => h.callersIn i hi ((hpq i).mpr hq),
    callersOut := fun i hi hq => h.callersOut i hi (fun hp => hq ((hpq i).mp hp)) }

/-- One more prologue during the calls phase: a repeat caller is a no-op, a
new caller joins sequence 0; no second sequence is ever created. -/
lemma callsInv_step (n : Nat) (tok : String) (env : StartEnv)
    (called : Nat → Prop) (s : Sys) (j : Nat) (hj : j < n)
    (h : CallsInv n tok env called s) :
    CallsInv n tok env (fun i => i = j ∨ called i) (step s (Ev.call j)) := by
  by_cases hjc : called j
  · have hcal : s.callers j = some (CallerPhase.awaiting 0) := h.callersIn j hj hjc
    rw [step_call_notPending s j (by rw [hcal]; simp)]
    exact
      { h with
        callersIn := fun i hi hc =>
          h.callersIn i hi (by rcases hc with rfl | hc; exacts [hjc, hc]),
        callersOut := fun i hi hc => h.callersOut i hi (fun hci => hc (Or.inr hci)) }
  · have hcal : s.callers j = some CallerPhase.pending := h.callersOut j hj hjc
    rw [step_call_join s j 0 hcal h.config h.procF h.startingEq]
    refine ⟨h.config, h.tokEq, h.envEq, h.procF, h.startingEq, h.nextIdEq, h.seq0,
            h.seqHigh, ?_, ?_, ?_, h.spawn0, h.cmd1⟩
    · intro i hi hc
      by_cases hij : i = j
      · subst hij
        dsimp only
        rw [upd_same]
      · dsimp only
        rw [upd_other _ _ _ hij]
        exact h.callersIn i hi (by rcases hc with rfl | hc; exacts [absurd rfl hij, hc])
    · intro i hi hc
      have hij : i ≠ j := fun hh => hc (Or.inl hh)
      dsimp only
      rw [upd_other _ _ _ hij]
      exact h.callersOut i hi (fun hci => hc (Or.inr hci))
    · intro i hi
      have hij : i ≠ j := by omega
      dsimp only
      rw [upd_other _ _ _ hij]
      exact h.callersHigh i hi

/-- The calls phase preserves its invariant over any list of prologues. -/
lemma callsInv_run (n : Nat) (tok : String) (env : StartEnv) :
    ∀ (c : List Nat), (∀ j ∈ c, j < n) →
    ∀ (called : Nat → Prop) (s : Sys), CallsInv n tok env called s →
    CallsInv n tok env (fun i => i ∈ c ∨ called i) (run s (c.map Ev.call)) := by
  intro c
  induction c with
  | nil =>
    intro _ called s h
    exact callsInv_congr n tok env called _ (fun i => by simp) s h
  | cons j c ih =>
    intro hc called s h
    have hj : j < n := hc j (by simp)
    have h1 := callsInv_step n tok env called s j hj h
    have h2 := ih (fun x hx => hc x (by simp [hx])) _ _ h1
    exact callsInv_congr n tok env _ _
      (fun i => by simp [List.mem_cons]; tauto) _ h2

/-- State after all prologues of a non-empty list of callers, each below `n`. -/
lemma callsPhase (n : Nat) (tok : String) (env : StartEnv) (j : Nat)
    (c : List Nat) (hj : j < n) (hc : ∀ x ∈ c, x < n) :
    CallsInv n tok env (fun i => i ∈ (j :: c))
      (run (initSys n tok env) ((j :: c).map Ev.call)) := by
  have h0 := callsInv_first n tok env j hj
  have h1 := callsInv_run n tok env c hc _ _ h0
  exact callsInv_congr n tok env _ _
    (fun i => by simp [List.mem_cons]; tauto) _ h1

/-- Once every caller below `n` has run its prologue, the calls-phase
invariant implies the flight invariant. -/
lemma callsInv_to_flightInv (n : Nat) (tok : String) (env : StartEnv)
    (called : Nat → Prop) (s : Sys) (h : CallsInv n tok env called s)
    (hall : ∀ i, i < n → called i) : FlightInv n tok env s :=
  { config := h.config, tokEq := h.tokEq, envEq := h.envEq,
    nextIdEq := h.nextIdEq, cmd1 := h.cmd1, seqHigh := h.seqHigh,
    callersHigh := h.callersHigh,
    seqCase := Or.inl ⟨h.seq0, h.startingEq, h.spawn0⟩,
    callersC := fun i hi => Or.inl (h.callersIn i hi (hall i hi)) }

/-- The flight invariant is preserved by every non-prologue event. -/
lemma flightInv_step (n : Nat) (tok : String) (env : StartEnv) (s : Sys)
    (e : Ev) (hne : isCall e = false) (h : FlightInv n tok env s) :
    FlightInv n tok env (step s e) := by
  cases e with
  | call i => simp [isCall] at hne
  | childGone =>
    exact ⟨h.config, h.tokEq, h.envEq, h.nextIdEq, h.cmd1, h.seqHigh,
           h.callersHigh, h.seqCase, h.callersC⟩
  | seqStep sid =>
    by_cases hsid : sid = 0
    · subst hsid
      rcases h.seqCase with ⟨hs, hst, hsp⟩ | ⟨hs, hst, hsp, hv⟩ | ⟨hs, hst, hsp⟩
      · cases hv : verifyToken tok env.readback with
        | some e0 =>
          have hv' : verifyToken s.tok s.env.readback = some e0 := by
            rw [h.tokEq, h.envEq]; exact hv
          rw [step_seq_syncing_err s 0 e0 hs hv']
          refine ⟨h.config, h.tokEq, h.envEq, h.nextIdEq, h.cmd1, ?_,
                  h.callersHigh, ?_, ?_⟩
          · intro k hk
            dsimp only
            rw [upd_other _ _ _ hk]
            exact h.seqHigh k hk
          · refine Or.inr (Or.inr ⟨?_, rfl, ?_⟩)
            · dsimp only
              rw [upd_same]
              have hout : seqOutcome tok env = some e0 := by
                simp [seqOutcome, startSequence, hv]
              rw [hout]
            · rw [hv]
              exact hsp
          · intro i hi
            rcases h.callersC i hi with hc | ⟨hc, hfin⟩
            · exact Or.inl hc
            · exact absurd (hs.symm.trans hfin) (by simp)
        | none =>
          have hv' : verifyToken s.tok s.env.readback = none := by
            rw [h.tokEq, h.envEq]; exact hv
          rw [step_seq_syncing_ok s 0 hs hv']
          refine ⟨h.config, h.tokEq, h.envEq, h.nextIdEq, h.cmd1, ?_,
                  h.callersHigh, ?_, ?_⟩
          · intro k hk
            dsimp only
            rw [upd_other _ _ _ hk]
            exact h.seqHigh k hk
          · refine Or.inr (Or.inl ⟨?_, hst, ?_, hv⟩)
            · dsimp only
              rw [upd_same]
            · dsimp only
              rw [hsp]
          · intro i hi
            rcases h.callersC i hi with hc | ⟨hc, hfin⟩
            · exact Or.inl hc
            · exact absurd (hs.symm.trans hfin) (by simp)
      · rw [step_seq_waiting s 0 hs]
        refine ⟨h.config, h.tokEq, h.envEq, h.nextIdEq, h.cmd1, ?_,
                h.callersHigh, ?_, ?_⟩
        · intro k hk
          dsimp only
          rw [upd_other _ _ _ hk]
          exact h.seqHigh k hk
        · refine Or.inr (Or.inr ⟨?_, rfl, ?_⟩)
          · dsimp only
            rw [upd_same, h.envEq]
            have hout : seqOutcome tok env = if env.ready then none
                else some StartErr.notReadyInTime := by
              simp [seqOutcome, startSequence, hv]
            rw [hout]
          · rw [hv]
            exact hsp
        · intro i hi
          rcases h.callersC i hi with hc | ⟨hc, hfin⟩
          · exact Or.inl hc
          · exact absurd (hs.symm.trans hfin) (by simp)
      · rw [step_seq_noop s 0 (by rw [hs]; simp) (by rw [hs]; simp)]
        exact h
    · rw [step_seq_noop s sid (by rw [h.seqHigh sid hsid]; simp)
          (by rw [h.seqHigh sid hsid]; simp)]
      exact h
  | settle i =>
    cases hcal : s.callers i with
    | none =>
      have hn : step s (Ev.settle i) = s := by simp [step, hcal]
      rw [hn]; exact h
    | some ph =>
      cases ph with
      | pending =>
        have hn : step s (Ev.settle i) = s := by simp [step, hcal]
        rw [hn]; exact h
      | settled r =>
        have hn : step s (Ev.settle i) = s := by simp [step, hcal]
        rw [hn]; exact h
      | awaiting sid =>
        by_cases hin : i < n
        · rcases h.callersC i hin with hc | ⟨hc, _⟩
          · have hsid : sid = 0 := by
              have h2 := hcal.symm.trans hc
              simp only [Option.some.injEq, CallerPhase.awaiting.injEq] at h2
              exact h2
            subst hsid
            rcases h.seqCase with ⟨hs, _, _⟩ | ⟨hs, _, _, _⟩ | ⟨hs, hst, hsp⟩
            · have hn : step s (Ev.settle i) = s := by simp [step, hcal, hs]
              rw [hn]; exact h
            · have hn : step s (Ev.settle i) = s := by simp [step, hcal, hs]
              rw [hn]; exact h
            · rw [step_settle_fin s i 0 _ hcal hs]
              refine ⟨h.config, h.tokEq, h.envEq, h.nextIdEq, h.cmd1, h.seqHigh,
                      ?_, h.seqCase, ?_⟩
              · intro k hk
                have hki : k ≠ i := by omega
                dsimp only
                rw [upd_other _ _ _ hki]
                exact h.callersHigh k hk
              · intro x hx
                by_cases hxi : x = i
                · subst hxi
                  exact Or.inr ⟨by dsimp only; rw [upd_same], hs⟩
                · rcases h.callersC x hx with hc2 | ⟨hc2, hfin2⟩
                  · refine Or.inl ?_
                    dsimp only
                    rw [upd_other _ _ _ hxi]
                    exact hc2
                  · refine Or.inr ⟨?_, hfin2⟩
                    dsimp only
                    rw [upd_other _ _ _ hxi]
                    exact hc2
          · exact absurd (hcal.symm.trans hc) (by simp)
        · have hnone := h.callersHigh i (by omega)
          exact absurd (hnone.symm.trans hcal) (by simp)

/-- The flight invariant is preserved over any prologue-free schedule. -/
lemma flightInv_run (n : Nat) (tok : String) (env : StartEnv) :
    ∀ (evs : List Ev), (∀ e ∈ evs, isCall e = false) →
    ∀ s, FlightInv n tok env s → FlightInv n tok env (run s evs) := by
  intro evs
  induction evs with
  | nil => intro _ s h; exact h
  | cons e evs ih =>
    intro hne s h
    exact ih (fun x hx => hne x (by simp [hx]))
      _ (flightInv_step n tok env s e (hne e (by simp)) h)

/-- The awaiting-caller invariant is preserved by every event. -/
lemma awaitInv_step (i sid : Nat) (s : Sys) (e : Ev) (h : AwaitInv i sid s) :
    AwaitInv i sid (step s e) := by
  cases e with
  | childGone => exact ⟨h.fresh, h.sidLt, h.state⟩
  | call j =>
    cases hcal : s.callers j with
    | none =>
      rw [step_call_notPending s j (by rw [hcal]; simp)]; exact h
    | some ph =>
      cases ph with
      | awaiting sid2 =>
        rw [step_call_notPending s j (by rw [hcal]; simp)]; exact h
      | settled r =>
        rw [step_call_notPending s j (by rw [hcal]; simp)]; exact h
      | pending =>
        have hji : j ≠ i := by
          intro hji
          subst hji
          rcases h.state with hst | ⟨rr, _, hst⟩ <;>
            exact absurd (hcal.symm.trans hst) (by simp)
        cases hconf : s.config with
        | false =>
          rw [step_call_notConfigured s j hcal hconf]
          exact ⟨h.fresh, h.sidLt, by
            dsimp only
            rw [upd_other _ _ _ (Ne.symm hji)]
            exact h.state⟩
        | true =>
          cases hproc : s.proc with
          | true =>
            rw [step_call_fastOk s j hcal hconf hproc]
            exact ⟨h.fresh, h.sidLt, by
              dsimp only
              rw [upd_other _ _ _ (Ne.symm hji)]
              exact h.state⟩
          | false =>
            cases hstart : s.starting with
            | some sid2 =>
              rw [step_call_join s j sid2 hcal hconf hproc hstart]
              exact ⟨h.fresh, h.sidLt, by
                dsimp only
                rw [upd_other _ _ _ (Ne.symm hji)]
                exact h.state⟩
            | none =>
              rw [step_call_create s j hcal hconf hproc hstart]
              have hsidlt := h.sidLt
              refine ⟨?_, Nat.lt_succ_of_lt h.sidLt, ?_⟩
              · intro k hk
                have hk1 : s.nextId + 1 ≤ k := hk
                dsimp only
                rw [upd_other _ _ _ (by omega : k ≠ s.nextId)]
                exact h.fresh k (by omega)
              · rcases h.state with hst | ⟨rr, hsr, hst⟩
                · refine Or.inl ?_
                  dsimp only
                  rw [upd_other _ _ _ (Ne.symm hji)]
                  exact hst
                · refine Or.inr ⟨rr, ?_, ?_⟩
                  · dsimp only
                    rw [upd_other _ _ _ (by omega : sid ≠ s.nextId)]
                    exact hsr
                  · dsimp only
                    rw [upd_other _ _ _ (Ne.symm hji)]
                    exact hst
  | seqStep sid2 =>
    cases hs : s.seqs sid2 with
    | none =>
      rw [step_seq_noop s sid2 (by rw [hs]; simp) (by rw [hs]; simp)]; exact h
    | some ph =>
      have hsid2 : sid2 < s.nextId := by
        by_contra hge
        exact absurd ((h.fresh sid2 (by omega)).symm.trans hs) (by simp)
      cases ph with
      | finished r =>
        rw [step_seq_noop s sid2 (by rw [hs]; simp) (by rw [hs]; simp)]; exact h
      | syncing =>
        cases hv : verifyToken s.tok s.env.readback with
        | some e0 =>
          rw [step_seq_syncing_err s sid2 e0 hs hv]
          refine ⟨?_, h.sidLt, ?_⟩
          · intro k hk
            have hk1 : s.nextId ≤ k := hk
            dsimp only
            rw [upd_other _ _ _ (by omega : k ≠ sid2)]
            exact h.fresh k hk1
          · rcases h.state with hst | ⟨rr, hsr, hst⟩
            · exact Or.inl hst
            · have hne : sid ≠ sid2 := by
                intro hh
                subst hh
                exact absurd (hsr.symm.trans hs) (by simp)
              refine Or.inr ⟨rr, ?_, hst⟩
              dsimp only
              rw [upd_other _ _ _ hne]
              exact hsr
        | none =>
          rw [step_seq_syncing_ok s sid2 hs hv]
          refine ⟨?_, h.sidLt, ?_⟩
          · intro k hk
            have hk1 : s.nextId ≤ k := hk
            dsimp only
            rw [upd_other _ _ _ (by omega : k ≠ sid2)]
            exact h.fresh k hk1
          · rcases h.state with hst | ⟨rr, hsr, hst⟩
            · exact Or.inl hst
            · have hne : sid ≠ sid2 := by
                intro hh
                subst hh
                exact absurd (hsr.symm.trans hs) (by simp)
              refine Or.inr ⟨rr, ?_, hst⟩
              dsimp only
              rw [upd_other _ _ _ hne]
              exact hsr
      | waitingReady =>
        rw [step_seq_waiting s sid2 hs]
        refine ⟨?_, h.sidLt, ?_⟩
        · intro k hk
          have hk1 : s.nextId ≤ k := hk
          dsimp only
          rw [upd_other _ _ _ (by omega : k ≠ sid2)]
          exact h.fresh k hk1
        · rcases h.state with hst | ⟨rr, hsr, hst⟩
          · exact Or.inl hst
          · have hne : sid ≠ sid2 := by
              intro hh
              subst hh
              exact absurd (hsr.symm.trans hs) (by simp)
            refine Or.inr ⟨rr, ?_, hst⟩
            dsimp only
            rw [upd_other _ _ _ hne]
            exact hsr
  | settle j =>
    cases hcal : s.callers j with
    | none =>
      have hn : step s (Ev.settle j) = s := by simp [step, hcal]
      rw [hn]; exact h
    | some ph =>
      cases ph with
      | pending =>
        have hn : step s (Ev.settle j) = s := by simp [step, hcal]
        rw [hn]; exact h
      | settled r =>
        have hn : step s (Ev.settle j) = s := by simp [step, hcal]
        rw [hn]; exact h
      | awaiting sid2 =>
        cases hs : s.seqs sid2 with
        | none =>
          have hn : step s (Ev.settle j) = s := by simp [step, hcal, hs]
          rw [hn]; exact h
        | some sph =>
          cases sph with
          | syncing =>
            have hn : step s (Ev.settle j) = s := by simp [step, hcal, hs]
            rw [hn]; exact h
          | waitingReady =>
            have hn : step s (Ev.settle j) = s := by simp [step, hcal, hs]
            rw [hn]; exact h
          | finished rr2 =>
            rw [step_settle_fin s j sid2 rr2 hcal hs]
            refine ⟨h.fresh, h.sidLt, ?_⟩
            by_cases hji : j = i
            · subst hji
              rcases h.state with hst | ⟨rr, hsr, hst⟩
              · have hsid : sid2 = sid := by
                  have h2 := hst.symm.trans hcal
                  simp only [Option.some.injEq, CallerPhase.awaiting.injEq] at h2
                  exact h2.symm
                subst hsid
                exact Or.inr ⟨rr2, hs, by dsimp only; rw [upd_same]⟩
              · exact absurd (hst.symm.trans hcal) (by simp)
            · have hij : i ≠ j := fun hh => hji hh.symm
              rcases h.state with hst | ⟨rr, hsr, hst⟩
              · exact Or.inl (by dsimp only; rw [upd_other _ _ _ hij]; exact hst)
              · exact Or.inr ⟨rr, hsr, by dsimp only; rw [upd_other _ _ _ hij]; exact hst⟩

/-- The awaiting-caller invariant is preserved over any schedule. -/
lemma awaitInv_run (i sid : Nat) :
    ∀ (evs : List Ev) (s : Sys), AwaitInv i sid s → AwaitInv i sid (run s evs) := by
  intro evs
  induction evs with
  | nil => intro s h; exact h
  | cons e evs ih => intro s h; exact ih _ (awaitInv_step i sid s e h)

/-! ### Claim theorems (concurrent level) -/

/-- C3: starting from the idle state, if the prologues of all `n ≥ 1`
concurrent callers run before any further event (the meaning of issuing the
calls concurrently while idle: in the source, every prologue is synchronous
while the start sequence's first progress requires an I/O completion), then in
any completed continuation (every caller settled) exactly one start sequence
was created, at most one child was spawned — exactly one whenever token
verification passes — every caller settled with the single sequence's outcome,
and the in-flight-start marker is cleared. -/
theorem C3_single_flight (n : Nat) (tok : String) (env : StartEnv)
    (c : List Nat) (rest : List Ev) (hn : 0 < n)
    (hc : ∀ j ∈ c, j < n) (hall : ∀ i, i < n → i ∈ c)
    (hrest : ∀ e ∈ rest, isCall e = false)
    (hdone : ∀ i, i < n → ∃ r,
      (run (initSys n tok env) (c.map Ev.call ++ rest)).callers i
        = some (CallerPhase.settled r)) :
    (run (initSys n tok env) (c.map Ev.call ++ rest)).nextId = 1 ∧
    (run (initSys n tok env) (c.map Ev.call ++ rest)).spawnCount ≤ 1 ∧
    (verifyToken tok env.readback = none →
      (run (initSys n tok env) (c.map Ev.call ++ rest)).spawnCount = 1) ∧
    (∀ i, i < n →
      (run (initSys n tok env) (c.map Ev.call ++ rest)).callers i
        = some (CallerPhase.settled (resOf (seqOutcome tok env)))) ∧
    (run (initSys n tok env) (c.map Ev.call ++ rest)).starting = none := by
  obtain ⟨j, c2, rfl⟩ : ∃ j c2, c = j :: c2 := by
    cases c with
    | nil => exact absurd (hall 0 hn) (by simp)
    | cons j c2 => exact ⟨j, c2, rfl⟩
  have hQ1 : FlightInv n tok env (run (initSys n tok env) ((j :: c2).map Ev.call)) :=
    callsInv_to_flightInv n tok env _ _
      (callsPhase n tok env j c2 (hc j (by simp)) (fun x hx => hc x (by simp [hx])))
      hall
  have hsplit : run (initSys n tok env) ((j :: c2).map Ev.call ++ rest)
      = run (run (initSys n tok env) ((j :: c2).map Ev.call)) rest :=
    run_append _ _ _
  rw [hsplit] at hdone ⊢
  have hQ := flightInv_run n tok env rest hrest _ hQ1
  obtain ⟨r0, hr0⟩ := hdone 0 hn
  have hfin : (run (run (initSys n tok env) ((j :: c2).map Ev.call)) rest).seqs 0
      = some (SeqPhase.finished (seqOutcome tok env)) := by
    rcases hQ.callersC 0 hn with hcw | ⟨_, hf⟩
    · exact absurd (hr0.symm.trans hcw) (by simp)
    · exact hf
  rcases hQ.seqCase with ⟨hs, _, _⟩ | ⟨hs, _, _, _⟩ | ⟨hs, hst, hsp⟩
  · exact absurd (hfin.symm.trans hs) (by simp)
  · exact absurd (hfin.symm.trans hs) (by simp)
  · refine ⟨hQ.nextIdEq, ?_, ?_, ?_, hst⟩
    · rw [hsp]
      cases hv : verifyToken tok env.readback <;> simp [spawnOf]
    · intro hv
      rw [hsp, hv]
      rfl
    · intro i hi
      obtain ⟨ri, hri⟩ := hdone i hi
      rcases hQ.callersC i hi with hcw | ⟨hset, _⟩
      · exact absurd (hri.symm.trans hcw) (by simp)
      · exact hset

/-- C3 witness: two concurrent callers, a matching token and a ready gateway;
both settle with success after one sequence and one spawn. -/
theorem C3_single_flight_witness :
    (run (initSys 2 "t" ⟨ConfigRead.parsed (some "t"), true⟩)
        ([0, 1].map Ev.call ++ [Ev.seqStep 0, Ev.seqStep 0, Ev.settle 0, Ev.settle 1])).nextId = 1 ∧
    (run (initSys 2 "t" ⟨ConfigRead.parsed (some "t"), true⟩)
        ([0, 1].map Ev.call ++ [Ev.seqStep 0, Ev.seqStep 0, Ev.settle 0, Ev.settle 1])).spawnCount ≤ 1 ∧
    (verifyToken "t" (ConfigRead.parsed (some "t")) = none →
      (run (initSys 2 "t" ⟨ConfigRead.parsed (some "t"), true⟩)
        ([0, 1].map Ev.call ++ [Ev.seqStep 0, Ev.seqStep 0, Ev.settle 0, Ev.settle 1])).spawnCount = 1) ∧
    (∀ i, i < 2 →
      (run (initSys 2 "t" ⟨ConfigRead.parsed (some "t"), true⟩)
        ([0, 1].map Ev.call ++ [Ev.seqStep 0, Ev.seqStep 0, Ev.settle 0, Ev.settle 1])).callers i
        = some (CallerPhase.settled
            (resOf (seqOutcome "t" ⟨ConfigRead.parsed (some "t"), true⟩)))) ∧
    (run (initSys 2 "t" ⟨ConfigRead.parsed (some "t"), true⟩)
        ([0, 1].map Ev.call ++ [Ev.seqStep 0, Ev.seqStep 0, Ev.settle 0, Ev.settle 1])).starting = none :=
  C3_single_flight 2 "t" ⟨ConfigRead.parsed (some "t"), true⟩ [0, 1]
    [Ev.seqStep 0, Ev.seqStep 0, Ev.settle 0, Ev.settle 1]
    (by decide) (by decide) (by decide) (by decide)
    (fun i hi =>
      match i, hi with
      | 0, _ => ⟨Res.okRes, by decide⟩
      | 1, _ => ⟨Res.okRes, by decide⟩)

/-- C4 counterexample: with a start sequence in flight (sequence 0 unfinished,
marker set), a caller arriving after the spawn hits the held-reference fast
path and settles with success immediately — before the in-flight sequence
completes — and its outcome then differs from the first caller's, which gets
the readiness-timeout failure.  This contradicts the claim that every caller
arriving during the flight awaits the completion of the in-flight sequence
before settling. -/
theorem C4_counterexample :
    (run (initSys 2 "t" ⟨ConfigRead.parsed (some "t"), false⟩)
        [Ev.call 0, Ev.seqStep 0, Ev.call 1]).callers 1
      = some (CallerPhase.settled Res.okRes) ∧
    (run (initSys 2 "t" ⟨ConfigRead.parsed (some "t"), false⟩)
        [Ev.call 0, Ev.seqStep 0, Ev.call 1]).seqs 0
      = some SeqPhase.waitingReady ∧
    (run (initSys 2 "t" ⟨ConfigRead.parsed (some "t"), false⟩)
        [Ev.call 0, Ev.seqStep 0, Ev.call 1]).starting = some 0 ∧
    (run (initSys 2 "t" ⟨ConfigRead.parsed (some "t"), false⟩)
        [Ev.call 0, Ev.seqStep 0, Ev.call 1, Ev.seqStep 0, Ev.settle 0]).callers 0
      = some (CallerPhase.settled (Res.errRes StartErr.notReadyInTime)) ∧
    Res.okRes ≠ Res.errRes StartErr.notReadyInTime := by decide

/-- C4 (amended): a caller whose prologue runs while a start sequence is in
flight and no child reference is held joins that same sequence — creating no
new sequence, running no command, spawning nothing — and if it ever settles,
the joined sequence has finished and the caller's result is that sequence's
outcome.  (A caller arriving after the spawn, with the reference held, instead
settles with success immediately — see the counterexample.) -/
theorem C4_amended_join_in_flight (s : Sys) (i sid : Nat) (evs : List Ev)
    (hconf : s.config = true) (hproc : s.proc = false)
    (hstart : s.starting = some sid)
    (hcal : s.callers i = some CallerPhase.pending)
    (hfresh : ∀ k, s.nextId ≤ k → s.seqs k = none)
    (hsid : sid < s.nextId) :
    (step s (Ev.call i)).callers i = some (CallerPhase.awaiting sid) ∧
    (step s (Ev.call i)).nextId = s.nextId ∧
    (∀ k, (step s (Ev.call i)).seqs k = s.seqs k) ∧
    (step s (Ev.call i)).spawnCount = s.spawnCount ∧
    (step s (Ev.call i)).cmdCount = s.cmdCount ∧
    (step s (Ev.call i)).starting = s.starting ∧
    (∀ r, (run (step s (Ev.call i)) evs).callers i
        = some (CallerPhase.settled r) →
      ∃ rr, (run (step s (Ev.call i)) evs).seqs sid
          = some (SeqPhase.finished rr) ∧ r = resOf rr) := by
  have hstep := step_call_join s i sid hcal hconf hproc hstart
  refine ⟨?_, ?_, ?_, ?_, ?_, ?_, ?_⟩
  · rw [hstep]
    dsimp only
    rw [upd_same]
  · rw [hstep]
  · intro k
    rw [hstep]
  · rw [hstep]
  · rw [hstep]
  · rw [hstep]
  · have hinv0 : AwaitInv i sid (step s (Ev.call i)) := by
      rw [hstep]
      refine ⟨hfresh, hsid, Or.inl ?_⟩
      dsimp only
      rw [upd_same]
    have hinv := awaitInv_run i sid evs _ hinv0
    intro r hr
    rcases hinv.state with hst | ⟨rr, hsr, hst⟩
    · exact absurd (hr.symm.trans hst) (by simp)
    · refine ⟨rr, hsr, ?_⟩
      have h2 := hst.symm.trans hr
      simp only [Option.some.injEq, CallerPhase.settled.injEq] at h2
      exact h2.symm

/-- C4 amended witness: caller 1 arrives while sequence 0 is in flight and no
reference is held; it joins sequence 0, creating nothing new. -/
theorem C4_amended_witness :
    (step c4WitnessState (Ev.call 1)).callers 1 = some (CallerPhase.awaiting 0) ∧
    (step c4WitnessState (Ev.call 1)).nextId = c4WitnessState.nextId ∧
    (step c4WitnessState (Ev.call 1)).spawnCount = c4WitnessState.spawnCount := by
  have h := C4_amended_join_in_flight c4WitnessState 1 0 [] rfl rfl rfl (by decide)
    (fun k hk => by
      have hk1 : (1 : Nat) ≤ k := hk
      show upd (fun _ => none) 0 (some SeqPhase.syncing) k = none
      rw [upd_other _ _ _ (by omega : k ≠ 0)])
    (by decide)
  exact ⟨h.1, h.2.1, h.2.2.2.1⟩

end Moltbot
